import Mathlib

/-!
A Lean model of the cart-pole environment glue in
`prob_mbrl/envs/cartpole/env.py` and of the research utilities in
`prob_mbrl/utils/core.py`, together with theorems about their behaviour.

Real-valued tensors are modelled over `ℝ`; a 4-dimensional cart-pole state is
`Fin 4 → ℝ` (cart position, cart velocity, pole angle, pole angular velocity),
a 1-dimensional action is `Fin 1 → ℝ`, and the 2x2 / 1x1 weight matrices are
Mathlib matrices.
-/

/-- Modelled from the spec: `prob_mbrl.utils.angles.to_complex` is imported by
`env.py` but its module is not part of the sources here.  The spec's glossary
describes the angle-to-complex encoding as "representing an angular state
dimension as (cos, sin) pair to avoid discontinuities at wrap-around".  For a
4-dimensional state whose angle dimension is index 2 (the only use in
`CartpoleReward.forward`), the non-angle dimensions are kept in their original
order and the sine and the cosine of the angle are appended, so the encoded
vector is `[x 0, x 1, x 3, sin (x 2), cos (x 2)]`: index 3 carries the sine and
index 4 the cosine, which is what the pole-tip expression
`xa[:, 0] + pole_length * xa[:, 3]`, `-pole_length * xa[:, 4]` in
`CartpoleReward.forward` consumes. -/
noncomputable def to_complex (x : Fin 4 → ℝ) : Fin 5 → ℝ :=
  ![x 0, x 1, x 3, Real.sin (x 2), Real.cos (x 2)]

/-- Embedding of the torch expression `(v.mm(M) * v).sum(-1)` for a single row
`v`: the row-vector/matrix product followed by the elementwise product with `v`
and a sum over the last dimension. -/
def mmMulSum {k : ℕ} (v : Fin k → ℝ) (M : Matrix (Fin k) (Fin k) ℝ) : ℝ :=
  ∑ i, (∑ j, v j * M j i) * v i

/-- Embedding of `CartpoleReward.forward` from
`prob_mbrl/envs/cartpole/env.py` for a single 4-dimensional state row `x` and a
single 1-dimensional action row `u` (for such an `x` the branch
`x.shape[-1] != targeta.shape[-1]` is taken, since `targeta` has 5 columns, so
`x` goes through `angles.to_complex`).  The module parameters are the pole
length, the target state, and the weight matrices `Q` and `R`. -/
noncomputable def CartpoleReward.forward (pole_length : ℝ) (target : Fin 4 → ℝ)
    (Q : Matrix (Fin 2) (Fin 2) ℝ) (R : Matrix (Fin 1) (Fin 1) ℝ)
    (x : Fin 4 → ℝ) (u : Fin 1 → ℝ) : ℝ :=
  let targeta := to_complex target
  let target_tip_xy : Fin 2 → ℝ :=
    ![targeta 0 + pole_length * targeta 3, -pole_length * targeta 4]
  let xa := to_complex x
  let pole_tip_xy : Fin 2 → ℝ :=
    ![xa 0 + pole_length * xa 3, -pole_length * xa 4]
  let delta : Fin 2 → ℝ := fun i => (pole_tip_xy i - target_tip_xy i) / (2 * pole_length)
  let cost := 0.5 * (mmMulSum delta Q + mmMulSum u R)
  Real.exp (-cost)

/-- The planar position of the pole tip described by the spec:
`(x[0] + pole_length * sin theta, -pole_length * cos theta)` with
`theta = x[2]`. -/
noncomputable def poleTip (pole_length : ℝ) (x : Fin 4 → ℝ) : Fin 2 → ℝ :=
  ![x 0 + pole_length * Real.sin (x 2), -(pole_length * Real.cos (x 2))]

/-- The quadratic form `v^T M v` written the usual mathematical way. -/
def quadForm {k : ℕ} (M : Matrix (Fin k) (Fin k) ℝ) (v : Fin k → ℝ) : ℝ :=
  ∑ i, ∑ j, v i * M i j * v j

/-- The reward as the spec states it: `exp (-cost)` where
`cost = 0.5 * (delta^T Q delta + u^T R u)` and `delta` is the planar
displacement between the pole tip and the target's pole tip divided by
`2 * pole_length`. -/
noncomputable def CartpoleRewardSpec (pole_length : ℝ) (target : Fin 4 → ℝ)
    (Q : Matrix (Fin 2) (Fin 2) ℝ) (R : Matrix (Fin 1) (Fin 1) ℝ)
    (x : Fin 4 → ℝ) (u : Fin 1 → ℝ) : ℝ :=
  Real.exp (-(0.5 * (quadForm Q
      (fun i => (poleTip pole_length x i - poleTip pole_length target i) /
        (2 * pole_length)) + quadForm R u)))

theorem mmMulSum_eq_quadForm {k : ℕ} (v : Fin k → ℝ)
    (M : Matrix (Fin k) (Fin k) ℝ) : mmMulSum v M = quadForm M v := by
  unfold mmMulSum quadForm
  simp only [Finset.sum_mul]
  exact Finset.sum_comm

/-- Claim C1: for every state `x` and action `u` (and all module parameters),
`CartpoleReward.forward` returns `exp (-cost)` where
`cost = 0.5 * (delta^T Q delta + u^T R u)` and `delta` is the planar
displacement between the pole tip
`(x 0 + pole_length * sin (x 2), -pole_length * cos (x 2))` and the target's
pole tip, divided by `2 * pole_length`. -/
theorem cartpole_reward_forward_spec (pole_length : ℝ) (target : Fin 4 → ℝ)
    (Q : Matrix (Fin 2) (Fin 2) ℝ) (R : Matrix (Fin 1) (Fin 1) ℝ)
    (x : Fin 4 → ℝ) (u : Fin 1 → ℝ) :
    CartpoleReward.forward pole_length target Q R x u =
      CartpoleRewardSpec pole_length target Q R x u := by
  unfold CartpoleReward.forward CartpoleRewardSpec
  simp only [mmMulSum_eq_quadForm, to_complex, poleTip, neg_mul,
    Matrix.cons_val_zero, Matrix.cons_val_one, Matrix.head_cons,
    Matrix.cons_val_fin_one, Matrix.cons_val_succ]
  rfl

/-- Claim C2: the reward is invariant under replacing the angle entry `x 2` by
`x 2 + 2 * π`. -/
theorem cartpole_reward_wraparound (pole_length : ℝ) (target : Fin 4 → ℝ)
    (Q : Matrix (Fin 2) (Fin 2) ℝ) (R : Matrix (Fin 1) (Fin 1) ℝ)
    (x : Fin 4 → ℝ) (u : Fin 1 → ℝ) :
    CartpoleReward.forward pole_length target Q R
        (Function.update x 2 (x 2 + 2 * Real.pi)) u =
      CartpoleReward.forward pole_length target Q R x u := by
  have h : to_complex (Function.update x 2 (x 2 + 2 * Real.pi)) = to_complex x := by
    unfold to_complex
    rw [Function.update_same,
      Function.update_noteq (by decide : (0 : Fin 4) ≠ 2),
      Function.update_noteq (by decide : (1 : Fin 4) ≠ 2),
      Function.update_noteq (by decide : (3 : Fin 4) ≠ 2),
      Real.sin_add_two_pi, Real.cos_add_two_pi]
  unfold CartpoleReward.forward
  rw [h]

/-- Default weight matrix `Q = 16.0 * torch.eye(2)` of the `CartpoleReward`
constructor. -/
noncomputable def defaultQ : Matrix (Fin 2) (Fin 2) ℝ := (16 : ℝ) • 1

/-- Default weight matrix `R = 1e-4 * torch.eye(1)` of the `CartpoleReward`
constructor. -/
noncomputable def defaultR : Matrix (Fin 1) (Fin 1) ℝ := (1e-4 : ℝ) • 1

/-- Default target state `[0, 0, π, 0]` of the `CartpoleReward` constructor. -/
noncomputable def defaultTarget : Fin 4 → ℝ := ![0, 0, Real.pi, 0]

theorem forward_defaultQR (lp : ℝ) (target x : Fin 4 → ℝ) (u : Fin 1 → ℝ) :
    CartpoleReward.forward lp target defaultQ defaultR x u =
      Real.exp (-(0.5 *
        (16 * (((poleTip lp x 0 - poleTip lp target 0) / (2 * lp)) ^ 2 +
            ((poleTip lp x 1 - poleTip lp target 1) / (2 * lp)) ^ 2) +
          1e-4 * u 0 ^ 2))) := by
  unfold CartpoleReward.forward poleTip to_complex
  simp only [mmMulSum, defaultQ, defaultR, Fin.sum_univ_two, Fin.sum_univ_one,
    Matrix.smul_apply, Matrix.one_apply, smul_eq_mul,
    Matrix.cons_val_zero, Matrix.cons_val_one, Matrix.head_cons]
  norm_num
  ring_nf

/-- Claim C10: with the default weights `Q = 16 * I` and `R = 1e-4 * I`, the
reward lies in `(0, 1]` for every state `x` and action `u`, and it equals `1`
exactly when the pole tip coincides with the target's pole tip and `u = 0`
(for any nonzero pole length and any target). -/
theorem cartpole_reward_range (lp : ℝ) (target x : Fin 4 → ℝ) (u : Fin 1 → ℝ)
    (hlp : lp ≠ 0) :
    0 < CartpoleReward.forward lp target defaultQ defaultR x u ∧
      CartpoleReward.forward lp target defaultQ defaultR x u ≤ 1 ∧
      (CartpoleReward.forward lp target defaultQ defaultR x u = 1 ↔
        poleTip lp x = poleTip lp target ∧ u = 0) := by
  rw [forward_defaultQR]
  have h2lp : (2 : ℝ) * lp ≠ 0 := mul_ne_zero two_ne_zero hlp
  have key : ∀ A B C : ℝ,
      (Real.exp (-(0.5 * (16 * (A ^ 2 + B ^ 2) + 1e-4 * C ^ 2))) = 1 ↔
        (A = 0 ∧ B = 0 ∧ C = 0)) := by
    intro A B C
    rw [Real.exp_eq_one_iff]
    constructor
    · intro h
      have hA : A ^ 2 = 0 := by nlinarith [sq_nonneg A, sq_nonneg B, sq_nonneg C]
      have hB : B ^ 2 = 0 := by nlinarith [sq_nonneg A, sq_nonneg B, sq_nonneg C]
      have hC : C ^ 2 = 0 := by nlinarith [sq_nonneg A, sq_nonneg B, sq_nonneg C]
      exact ⟨(pow_eq_zero_iff two_ne_zero).mp hA, (pow_eq_zero_iff two_ne_zero).mp hB,
        (pow_eq_zero_iff two_ne_zero).mp hC⟩
    · rintro ⟨hA, hB, hC⟩
      rw [hA, hB, hC]
      norm_num
  refine ⟨Real.exp_pos _, ?_, ?_⟩
  · rw [Real.exp_le_one_iff]
    nlinarith [sq_nonneg ((poleTip lp x 0 - poleTip lp target 0) / (2 * lp)),
      sq_nonneg ((poleTip lp x 1 - poleTip lp target 1) / (2 * lp)), sq_nonneg (u 0)]
  · rw [key]
    have hdiv : ∀ a : ℝ, a / (2 * lp) = 0 ↔ a = 0 := by
      intro a
      rw [div_eq_zero_iff]
      exact or_iff_left h2lp
    have htip : poleTip lp x = poleTip lp target ↔
        (poleTip lp x 0 = poleTip lp target 0 ∧ poleTip lp x 1 = poleTip lp target 1) := by
      constructor
      · intro h
        exact ⟨congrFun h 0, congrFun h 1⟩
      · rintro ⟨h0, h1⟩
        funext i
        fin_cases i
        · exact h0
        · exact h1
    have huz : u = 0 ↔ u 0 = 0 := by
      constructor
      · intro h
        rw [h]
        rfl
      · intro h
        funext i
        fin_cases i
        exact h
    rw [htip, huz, hdiv, hdiv, sub_eq_zero, sub_eq_zero, and_assoc]

theorem cartpole_reward_range_witness :
    ((1 : ℝ) / 2 ≠ 0) ∧
      (0 < CartpoleReward.forward (1 / 2) defaultTarget defaultQ defaultR defaultTarget 0 ∧
        CartpoleReward.forward (1 / 2) defaultTarget defaultQ defaultR defaultTarget 0 ≤ 1 ∧
        (CartpoleReward.forward (1 / 2) defaultTarget defaultQ defaultR defaultTarget 0 = 1 ↔
          poleTip (1 / 2) defaultTarget = poleTip (1 / 2) defaultTarget ∧
            (0 : Fin 1 → ℝ) = 0)) :=
  ⟨by norm_num, cartpole_reward_range (1 / 2) defaultTarget defaultTarget 0 (by norm_num)⟩

/-- Modelled from the spec: `CartpoleModel` lives in
`prob_mbrl/envs/cartpole/model.py`, a module that is not among the sources
here; the only attribute `Cartpole.__init__` reads from it is the pole length
`lp`, so the model is represented by that parameter alone. -/
structure CartpoleModel where
  lp : ℝ

/-- Modelled from the spec: the default `CartpoleModel()` constructed when
`Cartpole.__init__` receives `model=None`.  Its pole length is `0.5`, the same
reference length used by `CartpoleReward`'s constructor default. -/
noncomputable def CartpoleModel.default : CartpoleModel := ⟨0.5⟩

/-- The parameters of a constructed `CartpoleReward` module. -/
structure CartpoleRewardModule where
  pole_length : ℝ
  target : Fin 4 → ℝ
  Q : Matrix (Fin 2) (Fin 2) ℝ
  R : Matrix (Fin 1) (Fin 1) ℝ

/-- The module built by `CartpoleReward(pole_length=lp)`: `target`, `Q` and
`R` stay at their constructor defaults. -/
noncomputable def CartpoleReward.mkWithPoleLength (lp : ℝ) : CartpoleRewardModule :=
  ⟨lp, defaultTarget, defaultQ, defaultR⟩

/-- Calling a `CartpoleReward` module on a state and an action runs its
`forward`. -/
noncomputable def CartpoleRewardModule.apply (m : CartpoleRewardModule) :
    (Fin 4 → ℝ) → (Fin 1 → ℝ) → ℝ :=
  CartpoleReward.forward m.pole_length m.target m.Q m.R

/-- The `reward_func` argument of `Cartpole.__init__`: either a callable
reward function, or any non-callable value (`None` included). -/
inductive RewardFuncArg where
  | callable (f : (Fin 4 → ℝ) → (Fin 1 → ℝ) → ℝ)
  | nonCallable

/-- Embedding of the model and reward selection at the start of
`Cartpole.__init__`: when `model` is `None` a default `CartpoleModel()` is
constructed, and `reward_func` is used as given when it is callable, otherwise
replaced by `CartpoleReward(pole_length=model.lp)`.  The result is the pair
handed to the `GymEnv` base constructor. -/
noncomputable def Cartpole.init (model? : Option CartpoleModel)
    (rf : RewardFuncArg) : CartpoleModel × ((Fin 4 → ℝ) → (Fin 1 → ℝ) → ℝ) :=
  let model := match model? with
    | none => CartpoleModel.default
    | some m => m
  let reward_func := match rf with
    | .callable f => f
    | .nonCallable => (CartpoleReward.mkWithPoleLength model.lp).apply
  (model, reward_func)

/-- Claim C8: `Cartpole.__init__` with `model=None` uses the default
`CartpoleModel`; a `None` or non-callable `reward_func` is replaced by a
`CartpoleReward` whose pole length is the injected model's `lp`; a callable
`reward_func` is used as given. -/
theorem cartpole_init_defaults :
    (∀ rf, (Cartpole.init none rf).1 = CartpoleModel.default) ∧
      (∀ model?, (Cartpole.init model? RewardFuncArg.nonCallable).2 =
        (CartpoleReward.mkWithPoleLength
          (Cartpole.init model? RewardFuncArg.nonCallable).1.lp).apply) ∧
      (∀ model? f, (Cartpole.init model? (RewardFuncArg.callable f)).2 = f) := by
  refine ⟨fun rf => rfl, fun model? => ?_, fun model? f => rfl⟩
  cases model? <;> rfl

/-- Embedding of the `done` post-processing in `Cartpole.step`: after the
base-class step, `done` is overridden with `True` when the post-step cart
position `self.state[0]` violates `x_lim` and then when the pole angle
`self.state[2]` violates `ang_lim`. -/
noncomputable def Cartpole.stepDone (xlim0 xlim1 alim0 alim1 : ℝ)
    (state0 state2 : ℝ) (done : Bool) : Bool :=
  let done := if state0 < xlim0 ∨ state0 > xlim1 then true else done
  let done := if state2 < alim0 ∨ state2 > alim1 then true else done
  done

/-- Embedding of `Cartpole.step` with the default limits `x_lim = [-3.5, 3.5]`
and `ang_lim = [-4π, 4π]`.  The base-class `GymEnv.step` is not among the
sources here, so its outcome is abstract: `baseObs`, `baseReward`, `baseDone`
and `baseInfo` are whatever it returned, and `selfState` is the post-step
`self.state` it left behind.  The wrapper returns the base results unchanged
except for the `done` post-processing. -/
noncomputable def Cartpole.step {O I : Type} (baseObs : O) (baseReward : ℝ)
    (baseDone : Bool) (baseInfo : I) (selfState : Fin 4 → ℝ) :
    O × ℝ × Bool × I :=
  (baseObs, baseReward,
    Cartpole.stepDone (-3.5) 3.5 (-(4 * Real.pi)) (4 * Real.pi)
      (selfState 0) (selfState 2) baseDone, baseInfo)

/-- Claim C9: with the default limits, `Cartpole.step` returns `done = True`
exactly when the base step reported done, the post-step cart position lies
outside `[-3.5, 3.5]`, or the pole angle lies outside `[-4π, 4π]`; in
particular it never turns a `done = True` base result back into `False`, and
observation, reward and info pass through unchanged. -/
theorem cartpole_step_done_iff {O I : Type} (baseObs : O) (baseReward : ℝ)
    (baseDone : Bool) (baseInfo : I) (selfState : Fin 4 → ℝ) :
    ((Cartpole.step baseObs baseReward baseDone baseInfo selfState).2.2.1 = true ↔
      (baseDone = true ∨ selfState 0 < -3.5 ∨ selfState 0 > 3.5 ∨
        selfState 2 < -(4 * Real.pi) ∨ selfState 2 > 4 * Real.pi)) ∧
      (Cartpole.step baseObs baseReward baseDone baseInfo selfState).1 = baseObs ∧
      (Cartpole.step baseObs baseReward baseDone baseInfo selfState).2.1 = baseReward ∧
      (Cartpole.step baseObs baseReward baseDone baseInfo selfState).2.2.2 = baseInfo := by
  refine ⟨?_, rfl, rfl, rfl⟩
  unfold Cartpole.step Cartpole.stepDone
  split_ifs with h1 h2 <;> simp_all <;> tauto

/-!
Utilities from `prob_mbrl/utils/core.py`.
-/

/-- Python exception values relevant to `core.py`: `StopIteration` raised by
`next` on an exhausted iterator, `UnboundLocalError` raised when a local
variable is read before its first assignment, `RuntimeError` raised by
`torch.autograd.grad` on a `grad_outputs` shape mismatch, and a generic
`Exception` as raised by a failing checkpoint load. -/
inductive PyErr where
  | stopIteration
  | unboundLocalError
  | runtimeError
  | exception
deriving DecidableEq

/-- Python's `next` on a list iterator: yields the first remaining element and
the advanced iterator, or raises `StopIteration` when exhausted. -/
def pyNext {B : Type} : List B → Except PyErr (B × List B)
  | [] => .error .stopIteration
  | b :: rest => .ok (b, rest)

/-- Embedding of the `next_batch` closure inside `train_model`
(`prob_mbrl/utils/core.py`).  Because `data_iter` is assigned inside the
function body (`data_iter = iter(dataloader)`) without a `nonlocal`
declaration, Python treats `data_iter` as a local variable of `next_batch`,
unbound when the first `next(data_iter)` reads it.  The embedding reproduces
that scoping rule: the local starts out unbound (`none`), reading it raises
`UnboundLocalError`, the `except BaseException` handler catches it, binds the
local to a fresh iterator over the dataloader and draws that iterator's first
batch.  `freshIter` is the list of batches a freshly constructed (shuffled)
dataloader iterator would yield; `outerIter` is the enclosing `train_model`
scope's `data_iter`, which the function never touches.  The second component
of a successful result is the advanced local iterator, which Python discards
when the call returns. -/
def next_batch {B : Type} (freshIter : List B) (outerIter : List B) :
    Except PyErr (B × List B) :=
  let data_iter : Option (List B) := none
  let firstTry : Except PyErr (B × List B) :=
    match data_iter with
    | none => .error .unboundLocalError
    | some it => pyNext it
  match firstTry with
  | .ok r => .ok r
  | .error _ =>
      let data_iter := freshIter
      pyNext data_iter

/-- Claim C4 (against the code): every call of `next_batch` raises
`UnboundLocalError` internally and therefore draws the first batch of a fresh
dataloader iterator, independently of the enclosing iterator's position.  In
particular, with a dataloader yielding `[1, 2]`, a second call whose enclosing
iterator stands at batch `2` still returns batch `1` instead of the successive
batch `2`. -/
theorem next_batch_always_first_batch :
    (∀ (B : Type) (freshIter outerIter : List B),
      next_batch freshIter outerIter = pyNext freshIter) ∧
      next_batch [1, 2] [2] = Except.ok ((1 : ℕ), [2]) := by
  constructor
  · intro B freshIter outerIter
    rfl
  · rfl

/-- A torch module for the training loop: abstract parameters `P` plus the
mode flag toggled by `model.train()` and `model.eval()`. -/
structure TorchModule (P : Type) where
  params : P
  trainingMode : Bool

/-- The `for i in pbar` loop of `train_model`: one optimizer step per element
of the iteration list, in order. -/
def trainLoop {P : Type} (step : ℕ → P → P) : List ℕ → P → P
  | [], p => p
  | i :: rest, p => trainLoop step rest (step i p)

/-- Embedding of `train_model` from `prob_mbrl/utils/core.py`.  The autograd
and optimizer machinery is abstract: `optStep p L` is the parameter value
after `opt.zero_grad(); L.backward(); opt.step()` on the loss function `L` at
parameters `p` (covering the default Adam optimizer as well as a caller
supplied one); `logLik p b` is `pygx.log_prob(y).mean()` on the mini-batch
`b`; `regLoss` is `model.regularization_loss()`; `N` is `X.shape[0]`; and
`batches i` is the mini-batch `next_batch()` yields at iteration `i`.  The
body calls `model.train()`, runs the loop over `range(n_iters)` forming
`loss = -ll + reg / X.shape[0]` and taking one optimizer step on it each
iteration, and finally calls `model.eval()`. -/
noncomputable def train_model {P B : Type} (optStep : P → (P → ℝ) → P)
    (logLik : P → B → ℝ) (regLoss : P → ℝ) (N : ℝ) (batches : ℕ → B)
    (n_iters : ℕ) (model : TorchModule P) : TorchModule P :=
  let m := { model with trainingMode := true }
  let p := trainLoop
    (fun i p => optStep p (fun q => -logLik q (batches i) + regLoss q / N))
    (List.range n_iters) m.params
  { params := p, trainingMode := false }

theorem trainLoop_eq_foldl {P : Type} (step : ℕ → P → P) :
    ∀ (l : List ℕ) (p : P),
      trainLoop step l p = l.foldl (fun q i => step i q) p := by
  intro l
  induction l with
  | nil => intro p; rfl
  | cons i rest ih => intro p; simpa [trainLoop] using ih (step i p)

/-- Claim C3: `train_model` performs exactly `n_iters` optimizer iterations —
a fold of one optimizer step per index of `range(n_iters)` — each taking one
gradient step on `loss = -(mean log-likelihood of the mini-batch under the
model) + regularization_loss / X.shape[0]`, and returns with the model
switched to eval mode. -/
theorem train_model_iters_loss_eval {P B : Type} (optStep : P → (P → ℝ) → P)
    (logLik : P → B → ℝ) (regLoss : P → ℝ) (N : ℝ) (batches : ℕ → B)
    (n_iters : ℕ) (model : TorchModule P) :
    train_model optStep logLik regLoss N batches n_iters model =
      { params := (List.range n_iters).foldl
          (fun p i => optStep p (fun q => -logLik q (batches i) + regLoss q / N))
          model.params,
        trainingMode := false } := by
  simp only [train_model, trainLoop_eq_foldl]

/-- The four checkpoint components `load_checkpoint` tries to load, in source
order. -/
inductive LoadKind where
  | dynamics
  | policy
  | critic
  | experience
deriving DecidableEq

/-- Trace of a `load_checkpoint` run: which component loads were attempted, in
order, and which of them raised and were converted into warnings. -/
structure LoadTrace where
  attempted : List LoadKind
  warned : List LoadKind
deriving DecidableEq

/-- One `try: torch.load(...); obj.load(...)` / `except Exception:
warnings.warn(...)` block of `load_checkpoint`.  `outcome k = true` means the
load of component `k` succeeds, `false` that it raises an exception.  The
block records the attempt, converts a raised exception into a warning, and
never re-raises. -/
def loadBlock (outcome : LoadKind → Bool) (k : LoadKind) (t : LoadTrace) :
    Except PyErr LoadTrace :=
  let t := { t with attempted := t.attempted ++ [k] }
  let body : Except PyErr Unit :=
    if outcome k then .ok () else .error .exception
  match body with
  | .ok _ => .ok t
  | .error _ => .ok { t with warned := t.warned ++ [k] }

/-- Embedding of `load_checkpoint` from `prob_mbrl/utils/core.py`: it attempts
the dynamics load, the policy load, the critic load only when `val` is not
`None` (`hasVal`), and the experience load, each inside its own
`try/except Exception` block.  The `Except` layer propagates any uncaught
exception to the caller. -/
def load_checkpoint (outcome : LoadKind → Bool) (hasVal : Bool) :
    Except PyErr LoadTrace := do
  let t ← loadBlock outcome .dynamics ⟨[], []⟩
  let t ← loadBlock outcome .policy t
  let t ← if hasVal then loadBlock outcome .critic t else pure t
  loadBlock outcome .experience t

/-- Claim C5: for every combination of individual load outcomes and whether a
critic is supplied, `load_checkpoint` attempts the dynamics, policy, critic
(only when `val` is not `None`) and experience loads in order, issues one
warning per failing load while still attempting the remaining loads, and
returns normally — it never propagates an exception to its caller. -/
theorem load_checkpoint_attempts_all (outcome : LoadKind → Bool) (hasVal : Bool) :
    load_checkpoint outcome hasVal =
      Except.ok
        { attempted := [LoadKind.dynamics, LoadKind.policy] ++
            (if hasVal then [LoadKind.critic] else []) ++ [LoadKind.experience],
          warned := (([LoadKind.dynamics, LoadKind.policy] ++
            (if hasVal then [LoadKind.critic] else []) ++
              [LoadKind.experience]).filter fun k => !outcome k) } := by
  cases hasVal <;>
    cases h1 : outcome .dynamics <;> cases h2 : outcome .policy <;>
    cases h3 : outcome .critic <;> cases h4 : outcome .experience <;>
    simp [load_checkpoint, loadBlock, h1, h2, h3, h4, List.filter] <;> rfl

/-- State of a tqdm progress bar: its progress count and whether `close()`
has been called on it. -/
structure TqdmBar where
  count : ℕ
  closed : Bool

/-- A joblib batch-completion callback, abstractly: it receives the completed
batch's `batch_size` (an attribute of the callback instance in joblib) and
acts on the tqdm bar together with an opaque joblib-internal state `J`. -/
def BatchCallback (J : Type) : Type := ℕ → TqdmBar × J → TqdmBar × J

/-- The `TqdmBatchCompletionCallback` subclass defined inside `tqdm_joblib`:
its `__call__` first advances the tqdm bar by `batch_size`
(`tqdm_object.update(n=self.batch_size)`) and then delegates to the callback
class that was installed when the context was entered (`super().__call__`). -/
def TqdmBatchCompletionCallback {J : Type} (old : BatchCallback J) :
    BatchCallback J :=
  fun batch_size s =>
    old batch_size ({ s.1 with count := s.1.count + batch_size }, s.2)

/-- Embedding of the `tqdm_joblib` context manager from
`prob_mbrl/utils/core.py`.  `cb0` is the value of
`joblib.parallel.BatchCompletionCallBack` on entry and `bar0` the tqdm object;
`body` is the code run under the `with` statement, which observes the
installed callback class and the bar and either returns a value or raises
(`Except E A`).  The result collects the body's outcome, the final value of
`joblib.parallel.BatchCompletionCallBack` and the final bar state; the
`try/finally` restores the callback and closes the bar on both exits. -/
def tqdm_joblib {J A E : Type}
    (body : BatchCallback J → TqdmBar → Except E A × TqdmBar)
    (cb0 : BatchCallback J) (bar0 : TqdmBar) :
    (Except E A) × BatchCallback J × TqdmBar :=
  let installed := TqdmBatchCompletionCallback cb0
  let r := body installed bar0
  (r.1, cb0, { r.2 with closed := true })

/-- Claim C6: whether the body returns normally or raises, on exit
`joblib.parallel.BatchCompletionCallBack` is restored to its entry value and
the tqdm object is closed; the body's outcome is passed through; and while the
body runs the installed callback is the subclass that advances the bar by
`batch_size` on each batch completion before delegating to the original
callback. -/
theorem tqdm_joblib_restores {J A E : Type}
    (body : BatchCallback J → TqdmBar → Except E A × TqdmBar)
    (cb0 : BatchCallback J) (bar0 : TqdmBar) :
    (tqdm_joblib body cb0 bar0).2.1 = cb0 ∧
      ((tqdm_joblib body cb0 bar0).2.2).closed = true ∧
      (tqdm_joblib body cb0 bar0).1 =
        (body (TqdmBatchCompletionCallback cb0) bar0).1 ∧
      (∀ (batch_size : ℕ) (bar : TqdmBar) (j : J),
        TqdmBatchCompletionCallback cb0 batch_size (bar, j) =
          cb0 batch_size ({ bar with count := bar.count + batch_size }, j)) :=
  ⟨rfl, rfl, rfl, fun _ _ _ => rfl⟩

/-- A 2-dimensional torch tensor: its shape together with its entries
(entries outside the shape are irrelevant padding). -/
structure Tensor2 where
  rows : ℕ
  cols : ℕ
  val : ℕ → ℕ → ℝ

/-- `torch.eye(k)`. -/
noncomputable def eye (k : ℕ) : Tensor2 :=
  ⟨k, k, fun i j => if i = j then 1 else 0⟩

/-- A differentiable row-wise map together with the derivative data that
torch's autograd tracks for it: input width `n`, output width `m`, the value
`F` on one input row, and `jac x i j`, the partial derivative of output
coordinate `i` by input coordinate `j` at the input row `x`. -/
structure DiffMap where
  n : ℕ
  m : ℕ
  F : (ℕ → ℝ) → ℕ → ℝ
  jac : (ℕ → ℝ) → ℕ → ℕ → ℝ

/-- Semantics of `torch.autograd.grad(y_rep, x_rep, G)` where `y_rep` is the
row-wise application of the map `f` to `x_rep`, a batch of identical rows
equal to `x`: it raises `RuntimeError` unless `G` has exactly the shape of
`y_rep`, and otherwise returns one vector-Jacobian product per batch row —
row `k` is `fun j => ∑ i < y_rep.cols, G k i * jac x i j`, since batch row `k`
of the output depends only on batch row `k` of the input. -/
noncomputable def autogradGrad (f : DiffMap) (x : ℕ → ℝ) (yRep : Tensor2)
    (G : Tensor2) : Except PyErr Tensor2 :=
  if G.rows = yRep.rows ∧ G.cols = yRep.cols then
    .ok ⟨yRep.rows, f.n,
      fun k j => ∑ i ∈ Finset.range yRep.cols, G.val k i * f.jac x i j⟩
  else
    .error .runtimeError

/-- Embedding of `batch_jacobian` from `prob_mbrl/utils/core.py` for a single
input row `x` of width `f.n`.  When `out_dims` is `None` it is inferred as
`f(x).shape[-1] = f.m`; `x_rep` repeats the row `out_dims` times; `y_rep` is
the row-wise application of `f` to `x_rep`; and the gradient is taken with
`grad_outputs = torch.eye(x.shape[-1]) = eye f.n`. -/
noncomputable def batch_jacobian (f : DiffMap) (x : ℕ → ℝ)
    (out_dims? : Option ℕ) : Except PyErr Tensor2 :=
  let out_dims := match out_dims? with
    | none => f.m
    | some d => d
  let y_rep : Tensor2 := ⟨out_dims, f.m, fun _ j => f.F x j⟩
  autogradGrad f x y_rep (eye f.n)

/-- Claim C7 (against the code): `batch_jacobian` passes
`torch.eye(x.shape[-1])` as `grad_outputs`, whose shape matches the output
batch only when the output dimension equals the input dimension.  For the map
`x ↦ (x, 2x)` from width 1 to width 2 it raises `RuntimeError` instead of
returning the Jacobian; for a square map (here `(a, b) ↦ (a + b, a * b)` at
`(3, 5)`) it does return the Jacobian, one row per output coordinate and one
column per input coordinate. -/
theorem batch_jacobian_eye_mismatch :
    batch_jacobian
        ⟨1, 2, fun x j => if j = 0 then x 0 else 2 * x 0,
          fun _ i _ => if i = 0 then 1 else 2⟩
        (fun _ => 3) none = Except.error PyErr.runtimeError ∧
      (∃ t : Tensor2,
        batch_jacobian
            ⟨2, 2, fun x j => if j = 0 then x 0 + x 1 else x 0 * x 1,
              fun x i j => if i = 0 then 1 else if j = 0 then x 1 else x 0⟩
            (fun i => if i = 0 then 3 else 5) none = Except.ok t ∧
          t.rows = 2 ∧ t.cols = 2 ∧
          t.val 0 0 = 1 ∧ t.val 0 1 = 1 ∧ t.val 1 0 = 5 ∧ t.val 1 1 = 3) := by
  constructor
  · norm_num [batch_jacobian, autogradGrad, eye]
  · refine ⟨_, rfl, rfl, rfl, ?_, ?_, ?_, ?_⟩ <;>
      norm_num [batch_jacobian, autogradGrad, eye, Finset.sum_range_succ]
